import Mathlib

/-!
# OpenGLRenderer.hpp: uniform-location memoisation and uniform-buffer binding cache

A shallow embedding of `rwengine/include/render/OpenGLRenderer.hpp`:

* `OpenGLRenderer::OpenGLShaderProgram::getUniformLocation` (lines 171-182),
* `OpenGLRenderer::uploadUBO` (lines 222-235),

together with the state they read and write.  GL entry points are effects: the
embedding records every call the code issues in a list, in program order.
-/

namespace OpenRW

/-! ## Basic types -/

/-- GL object name (`GLuint`).  The code only stores and compares these. -/
abbrev GLuint := Nat

/-- GL signed integer (`GLint`), used for uniform locations; `-1` means not found. -/
abbrev GLint := Int

/-- GL enumerant (`GLenum`). -/
abbrev GLenum := Nat

/-- Width of `unsigned int` in bits on the platforms the renderer targets. -/
def UINT_BITS : Nat := 32

/-- Value of `GL_UNIFORM_BUFFER` in the GL headers. -/
def GL_UNIFORM_BUFFER : GLenum := 0x8A11

/-- Value of `GL_DYNAMIC_DRAW` in the GL headers. -/
def GL_DYNAMIC_DRAW : GLenum := 0x88E8

/-- Maximum depth of debug group stack (line 10). -/
def MAX_DEBUG_DEPTH : Nat := 5

/-- A `std::string` value: a finite sequence of `char` bytes.  The byte `0` is an
ordinary element of a `std::string`. -/
abbrev CppString := List (Fin 256)

/-- The C string seen through `name.c_str()`: the bytes before the first `0` byte.
This is what `glGetUniformLocation(program, name.c_str())` receives and what the
implicit `std::string(const char*)` conversion in `uniforms.find(name.c_str())`
builds. -/
def c_str (name : CppString) : CppString :=
  name.takeWhile (fun c => decide (c ≠ 0))

/-! ## `std::map` as an association list -/

/-- Lookup of `std::map::find`: `none` stands for `end()`. -/
def mapFind {K V : Type} [DecidableEq K] : List (K × V) → K → Option V
  | [], _ => none
  | (k, v) :: m, x => if x = k then some v else mapFind m x

/-- Assignment `m[k] = v` of `std::map::operator[]`: overwrites the entry for `k`
when there is one, inserts a new entry otherwise. -/
def mapAssign {K V : Type} [DecidableEq K] : List (K × V) → K → V → List (K × V)
  | [], x, v => [(x, v)]
  | (k, w) :: m, x, v => if x = k then (k, v) :: m else (k, w) :: mapAssign m x v

/-! ## `OpenGLShaderProgram` -/

/-- Class `OpenGLRenderer::OpenGLShaderProgram` (lines 161-183). -/
structure OpenGLShaderProgram where
  program : GLuint
  uniforms : List (CppString × GLint)
  deriving DecidableEq, Repr

/-- Constructor `OpenGLShaderProgram(GLuint p)`: the map starts empty. -/
def OpenGLShaderProgram.new (p : GLuint) : OpenGLShaderProgram :=
  { program := p, uniforms := [] }

/-- Outcome of one `getUniformLocation` call: the returned location, the handle
after the call, and the backend queries `glGetUniformLocation(program, cstring)`
the call issued. -/
structure UniformLookup where
  loc : GLint
  self : OpenGLShaderProgram
  queries : List (GLuint × CppString)
  deriving DecidableEq, Repr

/-- Method `getUniformLocation` (lines 171-182).  The first argument is the backend
entry point `glGetUniformLocation` as it answers at the time of the call.  The
lookup key is `name.c_str()`, the storage key is `name`.  The initial value `-1`
of the local `loc` is overwritten on both paths and does not appear. -/
def getUniformLocation (glGetUniformLocation : GLuint → CppString → GLint)
    (self : OpenGLShaderProgram) (name : CppString) : UniformLookup :=
  match mapFind self.uniforms (c_str name) with
  | none =>
      let loc := glGetUniformLocation self.program (c_str name)
      { loc := loc
        self := { self with uniforms := mapAssign self.uniforms name loc }
        queries := [(self.program, c_str name)] }
  | some second =>
      { loc := second, self := self, queries := [] }

/-- A run of `getUniformLocation` calls on one handle, in order, against a backend
that answers every query by the fixed function `q`.  Returns the handle after the
run and all backend queries issued. -/
def getUniformLocations (q : GLuint → CppString → GLint) :
    OpenGLShaderProgram → List CppString → OpenGLShaderProgram × List (GLuint × CppString)
  | self, [] => (self, [])
  | self, name :: rest =>
      let r := getUniformLocation q self name
      let t := getUniformLocations q r.self rest
      (t.1, r.queries ++ t.2)

/-- The uncached reference behaviour the memoised lookup is compared with: ask the
backend on every call. -/
def getUniformLocationDirect (q : GLuint → CppString → GLint)
    (self : OpenGLShaderProgram) (name : CppString) : GLint :=
  q self.program (c_str name)

/-- Every cached location is the answer of the backend `q` for the C string of its
key. -/
def CacheSound (q : GLuint → CppString → GLint) (self : OpenGLShaderProgram) : Prop :=
  ∀ k v, mapFind self.uniforms k = some v → v = q self.program (c_str k)

/-! ## Renderer state -/

/-- Struct `Renderer::ProfileInfo` (lines 125-134).  The two `GLuint64` fields and
the five `unsigned int` fields hold their numeric values. -/
structure ProfileInfo where
  timerStart : Nat
  duration : Nat
  primitives : Nat
  draws : Nat
  textures : Nat
  buffers : Nat
  uploads : Nat
  deriving DecidableEq, Repr

/-- The member `ProfileInfo profileInfo[MAX_DEBUG_DEPTH]` (line 241): an array whose
length is fixed by its type. -/
structure ProfileArray where
  slots : List ProfileInfo
  size_eq : slots.length = MAX_DEBUG_DEPTH
  deriving DecidableEq

/-- Read of `profileInfo[i]`; `none` when `i` is outside the array. -/
def ProfileArray.slot (a : ProfileArray) (i : Nat) : Option ProfileInfo :=
  a.slots[i]?

/-- Write of `profileInfo[i] = p` for an index inside the array. -/
def ProfileArray.store (a : ProfileArray) (i : Nat) (p : ProfileInfo) : ProfileArray :=
  { slots := a.slots.set i p
    size_eq := by rw [List.length_set]; exact a.size_eq }

/-- The data members of `OpenGLRenderer` and of its base `Renderer` that are not
floating-point records (lines 148-154 and 212-243).  Pointers are held as
addresses, `0` for `nullptr`. -/
structure OpenGLRenderer where
  viewport : Int × Int
  drawCounter : Int
  textureCounter : Int
  bufferCounter : Int
  currentDbuff : Nat
  currentTextures : List (GLuint × GLuint)
  currentProgram : Nat
  currentUBO : GLuint
  UBOObject : GLuint
  UBOScene : GLuint
  profileInfo : ProfileArray
  debugQuery : GLuint
  currentDebugDepth : Int
  deriving DecidableEq

/-- The GL calls `uploadUBO` can issue, with their arguments. -/
inductive GLCall (T : Type) where
  | glBindBuffer (target : GLenum) (buffer : GLuint)
  | glBufferData (target : GLenum) (size : Nat) (data : T) (usage : GLenum)
  deriving DecidableEq, Repr

/-- Whether a recorded call is a `glBindBuffer`. -/
def GLCall.isBind {T : Type} : GLCall T → Bool
  | .glBindBuffer _ _ => true
  | .glBufferData _ _ _ _ => false

/-- Number of `glBindBuffer` calls in a record of GL calls. -/
def bindCount {T : Type} (calls : List (GLCall T)) : Nat :=
  (calls.filter GLCall.isBind).length

/-- The `glBufferData` calls in a record of GL calls, in order. -/
def dataCalls {T : Type} (calls : List (GLCall T)) : List (GLCall T) :=
  calls.filter (fun c => !c.isBind)

/-- Method `uploadUBO<T>` (lines 222-235).  `RENDER_PROFILER` is the compile-time
switch `RW_USING(RENDER_PROFILER)` and `sizeofT` is `sizeof(T)`.  The result is
the renderer after the call with the GL calls issued, in order; `none` is the
access `profileInfo[currentDebugDepth-1]` outside the array, which has no defined
behaviour.  `uploads++` is `unsigned int` arithmetic and wraps. -/
def uploadUBO {T : Type} (RENDER_PROFILER : Bool) (sizeofT : Nat)
    (self : OpenGLRenderer) (buffer : GLuint) (data : T) :
    Option (OpenGLRenderer × List (GLCall T)) :=
  let bound : OpenGLRenderer × List (GLCall T) :=
    if self.currentUBO ≠ buffer then
      ({ self with currentUBO := buffer }, [GLCall.glBindBuffer GL_UNIFORM_BUFFER buffer])
    else
      (self, [])
  let calls := bound.2 ++ [GLCall.glBufferData GL_UNIFORM_BUFFER sizeofT data GL_DYNAMIC_DRAW]
  if RENDER_PROFILER = true ∧ bound.1.currentDebugDepth > 0 then
    let i := (bound.1.currentDebugDepth - 1).toNat
    match bound.1.profileInfo.slot i with
    | some p =>
        some ({ bound.1 with
                  profileInfo := bound.1.profileInfo.store i
                    { p with uploads := (p.uploads + 1) % 2 ^ UINT_BITS } },
              calls)
    | none => none
  else
    some (bound.1, calls)

/-- A finite sequence of `uploadUBO` calls, in order, with the GL calls of the
whole sequence. -/
def uploadUBOs {T : Type} (RENDER_PROFILER : Bool) (sizeofT : Nat) :
    OpenGLRenderer → List (GLuint × T) → Option (OpenGLRenderer × List (GLCall T))
  | self, [] => some (self, [])
  | self, (buffer, data) :: rest =>
      match uploadUBO RENDER_PROFILER sizeofT self buffer data with
      | none => none
      | some (self1, calls1) =>
          match uploadUBOs RENDER_PROFILER sizeofT self1 rest with
          | none => none
          | some (self2, calls2) => some (self2, calls1 ++ calls2)

/-- Binding elision as the specification words it: the number of positions of a
request sequence whose identifier differs from the cached value immediately
before that position, the cached value after a position being its identifier. -/
def transitions : GLuint → List GLuint → Nat
  | _, [] => 0
  | cached, b :: rest => (if b ≠ cached then 1 else 0) + transitions b rest

/-- The state invariant of the debug group stack: the depth stays within
`0 .. MAX_DEBUG_DEPTH`. -/
def DepthInv (self : OpenGLRenderer) : Prop :=
  0 ≤ self.currentDebugDepth ∧ self.currentDebugDepth ≤ (MAX_DEBUG_DEPTH : Int)

instance (self : OpenGLRenderer) : Decidable (DepthInv self) := by
  unfold DepthInv; infer_instance

/-- The GL calls of one `uploadUBO` call: the bind unless elided, then the upload. -/
def expectedCalls {T : Type} (sizeofT : Nat) (cached buffer : GLuint) (data : T) :
    List (GLCall T) :=
  (if cached ≠ buffer then [GLCall.glBindBuffer GL_UNIFORM_BUFFER buffer] else []) ++
    [GLCall.glBufferData GL_UNIFORM_BUFFER sizeofT data GL_DYNAMIC_DRAW]

/-! ## The cache reset -/

/-- The `std::string` of length 3 holding the bytes `a`, `0`, `b`. -/
def nameWithNul : CppString := [97, 0, 98]

/-- The `std::string` of length 2 holding the bytes `a`, `b`. -/
def namePlain : CppString := [97, 98]

/-- Five zeroed profiling slots. -/
def zeroSlots : ProfileArray :=
  { slots := List.replicate 5 ⟨0, 0, 0, 0, 0, 0, 0⟩, size_eq := rfl }

/-- A renderer with nothing drawn, buffer 1 cached and no debug group open. -/
def idle : OpenGLRenderer :=
  { viewport := (640, 480), drawCounter := 0, textureCounter := 0, bufferCounter := 0
    currentDbuff := 0, currentTextures := [], currentProgram := 0, currentUBO := 1
    UBOObject := 1, UBOScene := 2, profileInfo := zeroSlots, debugQuery := 0
    currentDebugDepth := 0 }

/-- The renderer `idle` with two debug groups open. -/
def nested : OpenGLRenderer := { idle with currentDebugDepth := 2 }

/-- The renderer `idle` at the deepest nesting, five debug groups open. -/
def deepest : OpenGLRenderer := { idle with currentDebugDepth := 5 }

/-- A renderer with one debug group open whose upload tally is the largest
`unsigned int`. -/
def saturated : OpenGLRenderer :=
  { idle with
      currentDebugDepth := 1
      profileInfo := zeroSlots.store 0 ⟨0, 0, 0, 0, 0, 0, 4294967295⟩ }


end OpenRW

namespace OpenRW

/-! ## Lemmas on the association list -/

theorem mapFind_mapAssign {K V : Type} [DecidableEq K] (m : List (K × V)) (k x : K) (v : V) :
    mapFind (mapAssign m k v) x = if x = k then some v else mapFind m x := by
  induction m with
  | nil => simp [mapAssign, mapFind]
  | cons e m ih =>
    obtain ⟨k0, w⟩ := e
    by_cases hk : k = k0
    · subst hk
      by_cases hx : x = k <;> simp [mapAssign, mapFind, hx]
    · by_cases hx0 : x = k0
      · subst hx0
        have hxk : ¬ x = k := fun h => hk h.symm
        simp [mapAssign, mapFind, hk, hxk]
      · simp [mapAssign, mapFind, hk, hx0, ih]

theorem c_str_idem (name : CppString) : c_str (c_str name) = c_str name := by
  unfold c_str
  exact List.takeWhile_idem

/-! ## Lemmas on `uploadUBO` -/

theorem uploadUBO_closed {T : Type} (pr : Bool) (sz : Nat) (s : OpenGLRenderer)
    (b : GLuint) (d : T) (h : ¬ (pr = true ∧ s.currentDebugDepth > 0)) :
    uploadUBO pr sz s b d =
      some ({ s with currentUBO := b }, expectedCalls sz s.currentUBO b d) := by
  unfold uploadUBO expectedCalls
  by_cases hb : s.currentUBO = b
  · subst hb
    simp [h]
  · simp [hb, h]

theorem slot_isSome_of_depth (s : OpenGLRenderer) (h0 : 0 < s.currentDebugDepth)
    (h1 : s.currentDebugDepth ≤ (MAX_DEBUG_DEPTH : Int)) :
    ∃ p, s.profileInfo.slot (s.currentDebugDepth - 1).toNat = some p := by
  have hlt : (s.currentDebugDepth - 1).toNat < s.profileInfo.slots.length := by
    rw [s.profileInfo.size_eq]; omega
  exact ⟨s.profileInfo.slots[(s.currentDebugDepth - 1).toNat], by
    unfold ProfileArray.slot; exact List.getElem?_eq_getElem hlt⟩

theorem uploadUBO_open {T : Type} (sz : Nat) (s : OpenGLRenderer)
    (b : GLuint) (d : T) (p : ProfileInfo) (h0 : 0 < s.currentDebugDepth)
    (hp : s.profileInfo.slot (s.currentDebugDepth - 1).toNat = some p) :
    uploadUBO true sz s b d =
      some ({ s with
                currentUBO := b
                profileInfo := s.profileInfo.store (s.currentDebugDepth - 1).toNat
                  { p with uploads := (p.uploads + 1) % 2 ^ UINT_BITS } },
            expectedCalls sz s.currentUBO b d) := by
  unfold uploadUBO expectedCalls
  by_cases hb : s.currentUBO = b
  · subst hb
    simp only [ne_eq, not_true_eq_false, ite_false, if_false, gt_iff_lt, h0, and_self,
      ite_true, if_true, hp, List.nil_append]
  · simp only [ne_eq, hb, not_false_eq_true, ite_true, if_true, gt_iff_lt, h0, and_self, hp,
      List.singleton_append]

theorem uploadUBO_none_iff {T : Type} (pr : Bool) (sz : Nat) (s : OpenGLRenderer)
    (b : GLuint) (d : T) :
    uploadUBO pr sz s b d = none ↔
      (pr = true ∧ (MAX_DEBUG_DEPTH : Int) < s.currentDebugDepth) := by
  by_cases h : pr = true ∧ s.currentDebugDepth > 0
  · obtain ⟨hpr, h0⟩ := h
    subst hpr
    by_cases h1 : s.currentDebugDepth ≤ (MAX_DEBUG_DEPTH : Int)
    · obtain ⟨p, hp⟩ := slot_isSome_of_depth s h0 h1
      rw [uploadUBO_open sz s b d p h0 hp]
      simp; omega
    · have hnone : s.profileInfo.slot (s.currentDebugDepth - 1).toNat = none := by
        unfold ProfileArray.slot
        apply List.getElem?_eq_none
        rw [s.profileInfo.size_eq]; omega
      have : uploadUBO true sz s b d = none := by
        unfold uploadUBO
        by_cases hb : s.currentUBO = b
        · subst hb
          simp only [ne_eq, not_true_eq_false, ite_false, if_false, gt_iff_lt, h0, and_self,
            ite_true, if_true, hnone]
        · simp only [ne_eq, hb, not_false_eq_true, ite_true, if_true, gt_iff_lt, h0, and_self,
            hnone]
      rw [this]; simp; omega
  · rw [uploadUBO_closed pr sz s b d h]
    simp
    intro hpr
    have : ¬ s.currentDebugDepth > 0 := fun h0 => h ⟨hpr, h0⟩
    have hm : (MAX_DEBUG_DEPTH : Int) = 5 := rfl
    omega

theorem slot_store_same (a : ProfileArray) (i : Nat) (p : ProfileInfo)
    (h : i < MAX_DEBUG_DEPTH) : (a.store i p).slot i = some p := by
  have hi : i < a.slots.length := by rw [a.size_eq]; exact h
  simp [ProfileArray.slot, ProfileArray.store, List.getElem?_set, hi]

theorem slot_store_other (a : ProfileArray) (i j : Nat) (p : ProfileInfo)
    (h : j ≠ i) : (a.store i p).slot j = a.slot j := by
  simp [ProfileArray.slot, ProfileArray.store, List.getElem?_set, h.symm]

theorem bindCount_expectedCalls {T : Type} (sz : Nat) (c b : GLuint) (d : T) :
    bindCount (expectedCalls sz c b d) = if b ≠ c then 1 else 0 := by
  unfold bindCount expectedCalls
  by_cases h : c = b
  · subst h; simp [GLCall.isBind]
  · have h2 : ¬ b = c := fun e => h e.symm
    simp [GLCall.isBind, h, h2]

theorem bindCount_append {T : Type} (xs ys : List (GLCall T)) :
    bindCount (xs ++ ys) = bindCount xs + bindCount ys := by
  simp [bindCount]

/-- One `uploadUBO` call on a state whose depth does not exceed the array when the
profiler is compiled in: the
call returns, the cache holds the requested buffer, the GL calls are the bind
unless elided followed by the upload, and the profiling array is either the old
one or the old one with the innermost open slot stored back with `uploads`
advanced. -/
theorem uploadUBO_result {T : Type} (pr : Bool) (sz : Nat) (s : OpenGLRenderer)
    (b : GLuint) (d : T)
    (hd : pr = true → s.currentDebugDepth ≤ (MAX_DEBUG_DEPTH : Int)) :
    ∃ pa : ProfileArray,
      uploadUBO pr sz s b d =
        some ({ s with currentUBO := b, profileInfo := pa },
              expectedCalls sz s.currentUBO b d) ∧
      ((¬ (pr = true ∧ s.currentDebugDepth > 0) ∧ pa = s.profileInfo) ∨
       (pr = true ∧ 0 < s.currentDebugDepth ∧
          ∃ p, s.profileInfo.slot (s.currentDebugDepth - 1).toNat = some p ∧
            pa = s.profileInfo.store (s.currentDebugDepth - 1).toNat
                  { p with uploads := (p.uploads + 1) % 2 ^ UINT_BITS })) := by
  by_cases h : pr = true ∧ s.currentDebugDepth > 0
  · obtain ⟨hpr, h0⟩ := h
    subst hpr
    obtain ⟨p, hp⟩ := slot_isSome_of_depth s h0 (hd rfl)
    exact ⟨_, uploadUBO_open sz s b d p h0 hp, Or.inr ⟨rfl, h0, p, hp, rfl⟩⟩
  · exact ⟨s.profileInfo, uploadUBO_closed pr sz s b d h, Or.inl ⟨h, rfl⟩⟩

theorem getLastD_cons (x : GLuint) (l : List GLuint) (a : GLuint) :
    ((x :: l).getLast?).getD a = (l.getLast?).getD x := by
  induction l generalizing x a with
  | nil => rfl
  | cons y l ih =>
    rw [List.getLast?_cons_cons, ih y a, ih y x]

/-- A run of `uploadUBO` calls from a state whose depth does not exceed the array
returns, keeps the depth, issues as many binds as the request sequence has
transitions, and leaves the last requested buffer cached. -/
theorem uploadUBOs_result {T : Type} (pr : Bool) (sz : Nat) (reqs : List (GLuint × T)) :
    ∀ s : OpenGLRenderer, (pr = true → s.currentDebugDepth ≤ (MAX_DEBUG_DEPTH : Int)) →
      ∃ t calls, uploadUBOs pr sz s reqs = some (t, calls) ∧
        t.currentDebugDepth = s.currentDebugDepth ∧
        bindCount calls = transitions s.currentUBO (reqs.map Prod.fst) ∧
        t.currentUBO = ((reqs.map Prod.fst).getLast?).getD s.currentUBO := by
  induction reqs with
  | nil =>
    intro s _
    exact ⟨s, [], rfl, rfl, rfl, rfl⟩
  | cons r rest ih =>
    intro s hd
    obtain ⟨b, d⟩ := r
    obtain ⟨pa, hcall, _⟩ := uploadUBO_result pr sz s b d hd
    obtain ⟨t, calls, hrun, hdepth, hcount, hlast⟩ :=
      ih { s with currentUBO := b, profileInfo := pa } hd
    refine ⟨t, expectedCalls sz s.currentUBO b d ++ calls, ?_, hdepth, ?_, ?_⟩
    · simp only [uploadUBOs, hcall, hrun]
    · rw [bindCount_append, bindCount_expectedCalls, hcount]
      simp [transitions]
    · rw [hlast]
      exact (getLastD_cons b (rest.map Prod.fst) s.currentUBO).symm

/-- Claim C2.  From every state whose debug depth does not exceed the profiling
array (so every call returns), every finite sequence of `uploadUBO` calls with
buffers b1..bn returns, the number of `glBindBuffer` calls it issues is the number
of positions whose buffer differs from the value cached immediately before that
position (the initial `currentUBO` for the first, the previous buffer afterwards),
`currentUBO` ends as bn (as the initial value when the sequence is empty), and the
scenario A, A, B with A ≠ B from a cache other than A issues exactly two binds. -/
theorem uploadUBO_binding_elision {T : Type} (RENDER_PROFILER : Bool) (sizeofT : Nat)
    (s : OpenGLRenderer) (reqs : List (GLuint × T))
    (hd : RENDER_PROFILER = true → s.currentDebugDepth ≤ (MAX_DEBUG_DEPTH : Int)) :
    (∃ t calls, uploadUBOs RENDER_PROFILER sizeofT s reqs = some (t, calls) ∧
        bindCount calls = transitions s.currentUBO (reqs.map Prod.fst) ∧
        t.currentUBO = ((reqs.map Prod.fst).getLast?).getD s.currentUBO) ∧
    (∀ (A B : GLuint) (d1 d2 d3 : T), A ≠ B → s.currentUBO ≠ A →
        ∃ t calls, uploadUBOs RENDER_PROFILER sizeofT s [(A, d1), (A, d2), (B, d3)]
            = some (t, calls) ∧
          bindCount calls = 2 ∧ t.currentUBO = B) := by
  constructor
  · obtain ⟨t, calls, h1, _, h3, h4⟩ := uploadUBOs_result RENDER_PROFILER sizeofT reqs s hd
    exact ⟨t, calls, h1, h3, h4⟩
  · intro A B d1 d2 d3 hAB hA
    obtain ⟨t, calls, h1, _, h3, h4⟩ :=
      uploadUBOs_result RENDER_PROFILER sizeofT [(A, d1), (A, d2), (B, d3)] s hd
    refine ⟨t, calls, h1, ?_, ?_⟩
    · rw [h3]
      have h5 : ¬ A = s.currentUBO := fun e => hA e.symm
      have h6 : ¬ B = A := fun e => hAB e.symm
      simp [transitions, h5, h6]
    · rw [h4]; simp

/-- Witness of claim C2: the renderer `nested` (two groups open, buffer 1 cached)
asked for buffers 7, 7, 9. -/
theorem uploadUBO_binding_elision_witness :
    (∃ t calls, uploadUBOs true 4 nested [(7, ()), (7, ()), (9, ())] = some (t, calls) ∧
        bindCount calls = transitions nested.currentUBO ([(7, ()), (7, ()), (9, ())].map Prod.fst) ∧
        t.currentUBO =
          (([(7, ()), (7, ()), (9, ())].map Prod.fst).getLast?).getD nested.currentUBO) ∧
    (∀ (A B : GLuint) (d1 d2 d3 : Unit), A ≠ B → nested.currentUBO ≠ A →
        ∃ t calls, uploadUBOs true 4 nested [(A, d1), (A, d2), (B, d3)] = some (t, calls) ∧
          bindCount calls = 2 ∧ t.currentUBO = B) :=
  uploadUBO_binding_elision true 4 nested [(7, ()), (7, ()), (9, ())] (by decide)

/-- Claim C4.  From every state whose debug depth does not exceed the profiling
array, for every buffer and data value, `uploadUBO` returns and issues exactly one
`glBufferData(GL_UNIFORM_BUFFER, sizeof(T), data, GL_DYNAMIC_DRAW)`, as its last
GL call, both when the bind is issued and when it is elided. -/
theorem uploadUBO_always_uploads {T : Type} (RENDER_PROFILER : Bool) (sizeofT : Nat)
    (s : OpenGLRenderer) (b : GLuint) (data : T)
    (hd : RENDER_PROFILER = true → s.currentDebugDepth ≤ (MAX_DEBUG_DEPTH : Int)) :
    ∃ t calls, uploadUBO RENDER_PROFILER sizeofT s b data = some (t, calls) ∧
      dataCalls calls = [GLCall.glBufferData GL_UNIFORM_BUFFER sizeofT data GL_DYNAMIC_DRAW] ∧
      (s.currentUBO ≠ b →
        calls = [GLCall.glBindBuffer GL_UNIFORM_BUFFER b,
                 GLCall.glBufferData GL_UNIFORM_BUFFER sizeofT data GL_DYNAMIC_DRAW]) ∧
      (s.currentUBO = b →
        calls = [GLCall.glBufferData GL_UNIFORM_BUFFER sizeofT data GL_DYNAMIC_DRAW]) := by
  obtain ⟨pa, hres, _⟩ := uploadUBO_result RENDER_PROFILER sizeofT s b data hd
  refine ⟨_, _, hres, ?_, ?_, ?_⟩
  · unfold dataCalls expectedCalls
    by_cases h : s.currentUBO = b
    · subst h; simp [GLCall.isBind]
    · simp [GLCall.isBind, h]
  · intro h
    simp [expectedCalls, h]
  · intro h
    simp [expectedCalls, h]

/-- Witness of claim C4: an elided bind (buffer 1 is cached) still uploads. -/
theorem uploadUBO_always_uploads_witness :
    ∃ t calls, uploadUBO true 4 nested 1 (42 : Nat) = some (t, calls) ∧
      dataCalls calls = [GLCall.glBufferData GL_UNIFORM_BUFFER 4 42 GL_DYNAMIC_DRAW] ∧
      (nested.currentUBO ≠ 1 →
        calls = [GLCall.glBindBuffer GL_UNIFORM_BUFFER 1,
                 GLCall.glBufferData GL_UNIFORM_BUFFER 4 42 GL_DYNAMIC_DRAW]) ∧
      (nested.currentUBO = 1 →
        calls = [GLCall.glBufferData GL_UNIFORM_BUFFER 4 42 GL_DYNAMIC_DRAW]) :=
  uploadUBO_always_uploads true 4 nested 1 42 (by decide)

/-- Claim C6, refuted as stated: from `idle` (buffer 1 cached, `bufferCounter` 0)
the call `uploadUBO(2, data)` issues its bind and updates the cache, and
`bufferCounter` is still 0, not 1. -/
theorem uploadUBO_bufferCounter_not_incremented :
    ∃ t calls, uploadUBO true 4 idle 2 () = some (t, calls) ∧
      idle.currentUBO ≠ 2 ∧ bindCount calls = 1 ∧ t.currentUBO = 2 ∧
      idle.bufferCounter = 0 ∧ t.bufferCounter = 0 ∧
      t.bufferCounter ≠ idle.bufferCounter + 1 :=
  ⟨_, _, uploadUBO_closed true 4 idle 2 () (by decide), by decide, by decide, rfl, rfl, rfl,
    by decide⟩

/-- Claim C6, amended.  From every state whose debug depth does not exceed the
profiling array, `uploadUBO` leaves `bufferCounter` unchanged on every call: when
the buffer differs from the cached `currentUBO` one bind is issued and the cache
updated, when it equals it no bind is issued, and the counter is the same in both
cases. -/
theorem uploadUBO_bufferCounter_unchanged {T : Type} (RENDER_PROFILER : Bool)
    (sizeofT : Nat) (s : OpenGLRenderer) (b : GLuint) (data : T)
    (hd : RENDER_PROFILER = true → s.currentDebugDepth ≤ (MAX_DEBUG_DEPTH : Int)) :
    ∃ t calls, uploadUBO RENDER_PROFILER sizeofT s b data = some (t, calls) ∧
      t.bufferCounter = s.bufferCounter ∧
      (s.currentUBO ≠ b → bindCount calls = 1 ∧ t.currentUBO = b) ∧
      (s.currentUBO = b → bindCount calls = 0 ∧ t.currentUBO = s.currentUBO) := by
  obtain ⟨pa, hres, _⟩ := uploadUBO_result RENDER_PROFILER sizeofT s b data hd
  refine ⟨_, _, hres, rfl, ?_, ?_⟩
  · intro h
    have h2 : ¬ b = s.currentUBO := fun e => h e.symm
    exact ⟨by rw [bindCount_expectedCalls]; simp [h2], rfl⟩
  · intro h
    exact ⟨by rw [bindCount_expectedCalls]; simp [h], h.symm⟩

/-- Witness of the amended claim C6: a bind from buffer 1 to buffer 2 with two
groups open. -/
theorem uploadUBO_bufferCounter_unchanged_witness :
    ∃ t calls, uploadUBO true 4 nested 2 () = some (t, calls) ∧
      t.bufferCounter = nested.bufferCounter ∧
      (nested.currentUBO ≠ 2 → bindCount calls = 1 ∧ t.currentUBO = 2) ∧
      (nested.currentUBO = 2 → bindCount calls = 0 ∧ t.currentUBO = nested.currentUBO) :=
  uploadUBO_bufferCounter_unchanged true 4 nested 2 () (by decide)

/-- Claim C7, refuted as stated: with the profiler enabled and one group open
whose `uploads` tally is 4294967295, an `uploadUBO` call leaves the tally at 0,
which is not an increase by one. -/
theorem uploadUBO_uploads_wraps :
    ∃ t calls, uploadUBO true 4 saturated 1 () = some (t, calls) ∧
      0 < saturated.currentDebugDepth ∧
      (saturated.profileInfo.slot 0).map (fun p => p.uploads) = some 4294967295 ∧
      (t.profileInfo.slot 0).map (fun p => p.uploads) = some 0 :=
  ⟨_, _, uploadUBO_open 4 saturated 1 () ⟨0, 0, 0, 0, 0, 0, 4294967295⟩ (by decide) (by decide),
    by decide, by decide, by decide⟩

/-- Claim C7, amended.  With the render profiler enabled, from every state whose
debug depth does not exceed the profiling array, `uploadUBO` returns for every
buffer (bind issued or elided); when a group is open the innermost open slot
`profileInfo[currentDebugDepth-1]` is stored back with `uploads` advanced by one
modulo 2^32, which is an increase by exactly one whenever the tally was below
4294967295; when no group is open the profiling array is unchanged. -/
theorem uploadUBO_uploads_tally {T : Type} (sizeofT : Nat)
    (s : OpenGLRenderer) (b : GLuint) (data : T)
    (hd : s.currentDebugDepth ≤ (MAX_DEBUG_DEPTH : Int)) :
    ∃ t calls, uploadUBO true sizeofT s b data = some (t, calls) ∧
      (0 < s.currentDebugDepth →
        ∃ p q, s.profileInfo.slot (s.currentDebugDepth - 1).toNat = some p ∧
          t.profileInfo.slot (s.currentDebugDepth - 1).toNat = some q ∧
          q.uploads = (p.uploads + 1) % 2 ^ UINT_BITS ∧
          (p.uploads < 2 ^ UINT_BITS - 1 → q.uploads = p.uploads + 1)) ∧
      (s.currentDebugDepth ≤ 0 → t.profileInfo = s.profileInfo) := by
  obtain ⟨pa, hres, hpa⟩ := uploadUBO_result true sizeofT s b data (fun _ => hd)
  refine ⟨_, _, hres, ?_, ?_⟩
  · intro h0
    rcases hpa with ⟨hno, _⟩ | ⟨_, _, p, hp, hstore⟩
    · exact absurd ⟨rfl, h0⟩ hno
    · have hi : (s.currentDebugDepth - 1).toNat < MAX_DEBUG_DEPTH := by
        have hm : (MAX_DEBUG_DEPTH : Int) = 5 := rfl
        have hn : MAX_DEBUG_DEPTH = 5 := rfl
        omega
      refine ⟨p, { p with uploads := (p.uploads + 1) % 2 ^ UINT_BITS }, hp, ?_, rfl, ?_⟩
      · show pa.slot _ = _
        rw [hstore]
        exact slot_store_same _ _ _ hi
      · intro hlt
        show (p.uploads + 1) % 2 ^ UINT_BITS = p.uploads + 1
        apply Nat.mod_eq_of_lt
        have h32 : 2 ^ UINT_BITS = 4294967296 := by decide
        omega
  · intro h0
    rcases hpa with ⟨_, hsame⟩ | ⟨_, hpos, _⟩
    · exact hsame
    · omega

/-- Witness of the amended claim C7: two groups open, buffer 3 requested. -/
theorem uploadUBO_uploads_tally_witness :
    ∃ t calls, uploadUBO true 4 nested 3 () = some (t, calls) ∧
      (0 < nested.currentDebugDepth →
        ∃ p q, nested.profileInfo.slot (nested.currentDebugDepth - 1).toNat = some p ∧
          t.profileInfo.slot (nested.currentDebugDepth - 1).toNat = some q ∧
          q.uploads = (p.uploads + 1) % 2 ^ UINT_BITS ∧
          (p.uploads < 2 ^ UINT_BITS - 1 → q.uploads = p.uploads + 1)) ∧
      (nested.currentDebugDepth ≤ 0 → t.profileInfo = nested.profileInfo) :=
  uploadUBO_uploads_tally 4 nested 3 () (by decide)

/-- Claim C8.  Under the invariant `0 ≤ currentDebugDepth ≤ MAX_DEBUG_DEPTH`, with
`MAX_DEBUG_DEPTH = 5` the length of `profileInfo`: whenever a group is open the
index `currentDebugDepth-1` lies in `0 .. MAX_DEBUG_DEPTH-1` and names a slot of
the array, every `uploadUBO` call returns (the out-of-range branch is not taken),
and with no group open the call does not touch the array. -/
theorem uploadUBO_slot_in_bounds {T : Type} (RENDER_PROFILER : Bool) (sizeofT : Nat)
    (s : OpenGLRenderer) (b : GLuint) (data : T) (hinv : DepthInv s) :
    MAX_DEBUG_DEPTH = 5 ∧ s.profileInfo.slots.length = MAX_DEBUG_DEPTH ∧
    (0 < s.currentDebugDepth →
      0 ≤ s.currentDebugDepth - 1 ∧
      s.currentDebugDepth - 1 ≤ (MAX_DEBUG_DEPTH : Int) - 1 ∧
      (s.currentDebugDepth - 1).toNat < s.profileInfo.slots.length ∧
      (s.profileInfo.slot (s.currentDebugDepth - 1).toNat).isSome = true) ∧
    uploadUBO RENDER_PROFILER sizeofT s b data ≠ none ∧
    (s.currentDebugDepth = 0 →
      uploadUBO RENDER_PROFILER sizeofT s b data =
        some ({ s with currentUBO := b }, expectedCalls sizeofT s.currentUBO b data)) := by
  obtain ⟨hlo, hhi⟩ := hinv
  have hm : (MAX_DEBUG_DEPTH : Int) = 5 := rfl
  refine ⟨rfl, s.profileInfo.size_eq, ?_, ?_, ?_⟩
  · intro h0
    obtain ⟨p, hp⟩ := slot_isSome_of_depth s h0 hhi
    refine ⟨by omega, by omega, ?_, by rw [hp]; rfl⟩
    rw [s.profileInfo.size_eq]
    have hn : MAX_DEBUG_DEPTH = 5 := rfl
    omega
  · intro hnone
    have := (uploadUBO_none_iff RENDER_PROFILER sizeofT s b data).mp hnone
    omega
  · intro hz
    apply uploadUBO_closed
    rintro ⟨_, hpos⟩
    omega

/-- Witness of claim C8: the deepest admissible nesting, five groups open. -/
theorem uploadUBO_slot_in_bounds_witness :
    MAX_DEBUG_DEPTH = 5 ∧ deepest.profileInfo.slots.length = MAX_DEBUG_DEPTH ∧
    (0 < deepest.currentDebugDepth →
      0 ≤ deepest.currentDebugDepth - 1 ∧
      deepest.currentDebugDepth - 1 ≤ (MAX_DEBUG_DEPTH : Int) - 1 ∧
      (deepest.currentDebugDepth - 1).toNat < deepest.profileInfo.slots.length ∧
      (deepest.profileInfo.slot (deepest.currentDebugDepth - 1).toNat).isSome = true) ∧
    uploadUBO true 4 deepest 2 () ≠ none ∧
    (deepest.currentDebugDepth = 0 →
      uploadUBO true 4 deepest 2 () =
        some ({ deepest with currentUBO := 2 }, expectedCalls 4 deepest.currentUBO 2 ())) :=
  uploadUBO_slot_in_bounds true 4 deepest 2 () (by decide)

/-- Claim C9.  From every state whose debug depth does not exceed the profiling
array, `uploadUBO` returns a state that differs from the one before at most in
`currentUBO` and in `profileInfo`: `currentDebugDepth`, the three frame counters,
`currentProgram`, `currentTextures` and every remaining member are identical;
every slot whose index is not `currentDebugDepth-1` is identical; and in every
slot the fields `timerStart`, `duration`, `primitives`, `draws`, `textures` and
`buffers` are identical. -/
theorem uploadUBO_frame {T : Type} (RENDER_PROFILER : Bool) (sizeofT : Nat)
    (s : OpenGLRenderer) (b : GLuint) (data : T)
    (hd : RENDER_PROFILER = true → s.currentDebugDepth ≤ (MAX_DEBUG_DEPTH : Int)) :
    ∃ t calls, uploadUBO RENDER_PROFILER sizeofT s b data = some (t, calls) ∧
      t = { s with currentUBO := t.currentUBO, profileInfo := t.profileInfo } ∧
      t.currentDebugDepth = s.currentDebugDepth ∧
      t.drawCounter = s.drawCounter ∧ t.textureCounter = s.textureCounter ∧
      t.bufferCounter = s.bufferCounter ∧
      t.currentProgram = s.currentProgram ∧ t.currentTextures = s.currentTextures ∧
      (∀ j : Nat, (j : Int) ≠ s.currentDebugDepth - 1 →
        t.profileInfo.slot j = s.profileInfo.slot j) ∧
      (∀ (j : Nat) (p : ProfileInfo), s.profileInfo.slot j = some p →
        ∃ q, t.profileInfo.slot j = some q ∧
          q.timerStart = p.timerStart ∧ q.duration = p.duration ∧
          q.primitives = p.primitives ∧ q.draws = p.draws ∧
          q.textures = p.textures ∧ q.buffers = p.buffers) := by
  obtain ⟨pa, hres, hpa⟩ := uploadUBO_result RENDER_PROFILER sizeofT s b data hd
  refine ⟨_, _, hres, rfl, rfl, rfl, rfl, rfl, rfl, rfl, ?_, ?_⟩
  · intro j hj
    show pa.slot j = _
    rcases hpa with ⟨_, hsame⟩ | ⟨_, hpos, p, _, hstore⟩
    · rw [hsame]
    · rw [hstore]
      apply slot_store_other
      omega
  · intro j p hp
    show ∃ q, pa.slot j = some q ∧ _
    rcases hpa with ⟨_, hsame⟩ | ⟨hpr, hpos, p0, hp0, hstore⟩
    · rw [hsame]
      exact ⟨p, hp, rfl, rfl, rfl, rfl, rfl, rfl⟩
    · by_cases hj : j = (s.currentDebugDepth - 1).toNat
      · subst hj
        have hi : (s.currentDebugDepth - 1).toNat < MAX_DEBUG_DEPTH := by
          have hle := hd hpr
          have hm : (MAX_DEBUG_DEPTH : Int) = 5 := rfl
          have hn : MAX_DEBUG_DEPTH = 5 := rfl
          omega
        rw [hp] at hp0
        injection hp0 with hpp
        subst hpp
        rw [hstore]
        exact ⟨_, slot_store_same _ _ _ hi, rfl, rfl, rfl, rfl, rfl, rfl⟩
      · rw [hstore, slot_store_other _ _ _ _ hj]
        exact ⟨p, hp, rfl, rfl, rfl, rfl, rfl, rfl⟩

/-- Witness of claim C9: two groups open, a bind from buffer 1 to buffer 3. -/
theorem uploadUBO_frame_witness :
    ∃ t calls, uploadUBO true 4 nested 3 () = some (t, calls) ∧
      t = { nested with currentUBO := t.currentUBO, profileInfo := t.profileInfo } ∧
      t.currentDebugDepth = nested.currentDebugDepth ∧
      t.drawCounter = nested.drawCounter ∧ t.textureCounter = nested.textureCounter ∧
      t.bufferCounter = nested.bufferCounter ∧
      t.currentProgram = nested.currentProgram ∧
      t.currentTextures = nested.currentTextures ∧
      (∀ j : Nat, (j : Int) ≠ nested.currentDebugDepth - 1 →
        t.profileInfo.slot j = nested.profileInfo.slot j) ∧
      (∀ (j : Nat) (p : ProfileInfo), nested.profileInfo.slot j = some p →
        ∃ q, t.profileInfo.slot j = some q ∧
          q.timerStart = p.timerStart ∧ q.duration = p.duration ∧
          q.primitives = p.primitives ∧ q.draws = p.draws ∧
          q.textures = p.textures ∧ q.buffers = p.buffers) :=
  uploadUBO_frame true 4 nested 3 () (by decide)

/-! ## `getUniformLocation` -/

theorem getUniformLocation_program (q : GLuint → CppString → GLint)
    (h : OpenGLShaderProgram) (n : CppString) :
    (getUniformLocation q h n).self.program = h.program := by
  unfold getUniformLocation
  cases mapFind h.uniforms (c_str n) <;> rfl

/-- The value a call returns is the cached one on a hit and the backend answer for
the C string of the name on a miss. -/
theorem getUniformLocation_loc (q : GLuint → CppString → GLint)
    (h : OpenGLShaderProgram) (n : CppString) :
    (getUniformLocation q h n).loc =
      (mapFind h.uniforms (c_str n)).getD (q h.program (c_str n)) := by
  unfold getUniformLocation
  cases mapFind h.uniforms (c_str n) <;> rfl

theorem getUniformLocation_sound (q : GLuint → CppString → GLint)
    (h : OpenGLShaderProgram) (n : CppString) (hs : CacheSound q h) :
    CacheSound q (getUniformLocation q h n).self := by
  intro k v hk
  rw [getUniformLocation_program]
  unfold getUniformLocation at hk
  cases hfind : mapFind h.uniforms (c_str n) with
  | some w =>
    rw [hfind] at hk
    exact hs k v hk
  | none =>
    rw [hfind] at hk
    simp only [mapFind_mapAssign] at hk
    by_cases hkn : k = n
    · subst hkn
      simp only [if_true] at hk
      injection hk with hk
      exact hk.symm
    · simp only [hkn, if_false] at hk
      exact hs k v hk

theorem getUniformLocations_sound (q : GLuint → CppString → GLint) (names : List CppString) :
    ∀ h : OpenGLShaderProgram, CacheSound q h →
      CacheSound q (getUniformLocations q h names).1 ∧
      (getUniformLocations q h names).1.program = h.program := by
  induction names with
  | nil => intro h hs; exact ⟨hs, rfl⟩
  | cons n rest ih =>
    intro h hs
    obtain ⟨h1, h2⟩ := ih (getUniformLocation q h n).self (getUniformLocation_sound q h n hs)
    exact ⟨h1, by rw [← getUniformLocation_program q h n]; exact h2⟩

/-- An entry survives a call unless the call is made with that very key and the
key holds a `0` byte: entries under other keys, and entries under keys without a
`0` byte, are never removed or changed. -/
theorem getUniformLocation_keeps_entry (q : GLuint → CppString → GLint)
    (h : OpenGLShaderProgram) (n k : CppString) (v : GLint)
    (hk : mapFind h.uniforms k = some v) (hne : k ≠ n ∨ c_str n = n) :
    mapFind (getUniformLocation q h n).self.uniforms k = some v := by
  unfold getUniformLocation
  cases hfind : mapFind h.uniforms (c_str n) with
  | some w => exact hk
  | none =>
    show mapFind (mapAssign h.uniforms n _) k = some v
    rw [mapFind_mapAssign]
    by_cases hkn : k = n
    · subst hkn
      rcases hne with hne | hne
      · exact absurd rfl hne
      · rw [hne, hk] at hfind
        exact Option.noConfusion hfind
    · simp only [hkn, if_false]
      exact hk

/-- For a name without a `0` byte the lookup is memoised: after one call, a later
call with the same name, against any backend, issues no query, returns the value
of the first call and leaves the handle as it is. -/
theorem getUniformLocation_memo (q q2 : GLuint → CppString → GLint)
    (h : OpenGLShaderProgram) (n : CppString) (hn : c_str n = n) :
    getUniformLocation q2 (getUniformLocation q h n).self n =
      { loc := (getUniformLocation q h n).loc
        self := (getUniformLocation q h n).self
        queries := [] } := by
  have hstored : mapFind (getUniformLocation q h n).self.uniforms n
      = some (getUniformLocation q h n).loc := by
    unfold getUniformLocation
    cases hfind : mapFind h.uniforms (c_str n) with
    | some w => rw [hn] at hfind; exact hfind
    | none =>
      show mapFind (mapAssign h.uniforms n _) n = some _
      rw [mapFind_mapAssign]; simp
  generalize getUniformLocation q h n = r at hstored
  unfold getUniformLocation
  rw [hn, hstored]

theorem getUniformLocations_keeps_entry (q : GLuint → CppString → GLint)
    (names : List CppString) (k : CppString) (v : GLint) (hk0 : c_str k = k) :
    ∀ h : OpenGLShaderProgram, mapFind h.uniforms k = some v →
      mapFind (getUniformLocations q h names).1.uniforms k = some v := by
  induction names with
  | nil => intro h hk; exact hk
  | cons n rest ih =>
    intro h hk
    apply ih
    apply getUniformLocation_keeps_entry q h n k v hk
    by_cases hkn : k = n
    · right; rw [← hkn]; exact hk0
    · left; exact hkn

/-- For a name without a `0` byte, after a first call and any run of further calls
on the handle, a call with that name issues no backend query and returns the
value of the first call, the not-found value `-1` included. -/
theorem getUniformLocation_memo_after_run (q : GLuint → CppString → GLint)
    (h : OpenGLShaderProgram) (n : CppString) (names : List CppString)
    (hn : c_str n = n) :
    (getUniformLocation q
        (getUniformLocations q (getUniformLocation q h n).self names).1 n).queries = [] ∧
    (getUniformLocation q
        (getUniformLocations q (getUniformLocation q h n).self names).1 n).loc
      = (getUniformLocation q h n).loc := by
  have hstored : mapFind (getUniformLocation q h n).self.uniforms n
      = some (getUniformLocation q h n).loc := by
    unfold getUniformLocation
    cases hfind : mapFind h.uniforms (c_str n) with
    | some w => rw [hn] at hfind; exact hfind
    | none =>
      show mapFind (mapAssign h.uniforms n _) n = some _
      rw [mapFind_mapAssign]; simp
  have hlater := getUniformLocations_keeps_entry q names n _ hn _ hstored
  generalize (getUniformLocations q (getUniformLocation q h n).self names).1 = h2 at hlater
  generalize (getUniformLocation q h n).loc = v at hlater
  unfold getUniformLocation
  rw [hn, hlater]
  exact ⟨rfl, rfl⟩

/-- Claim C1, at its failing input.  On a fresh handle for program 1, two calls of
`getUniformLocation` with the same name, the three bytes `a`, `0`, `b`, each issue
the backend query `glGetUniformLocation(1, "a")`: the lookup key is the C string
`a`, the entry is stored under the full name, and the second call misses again. -/
theorem getUniformLocation_requeries_name_with_nul :
    (getUniformLocation (fun _ _ => 3) (OpenGLShaderProgram.new 1) nameWithNul).queries
      = [(1, [97])] ∧
    (getUniformLocation (fun _ _ => 3)
        (getUniformLocation (fun _ _ => 3) (OpenGLShaderProgram.new 1) nameWithNul).self
        nameWithNul).queries = [(1, [97])] ∧
    (getUniformLocations (fun _ _ => 3) (OpenGLShaderProgram.new 1)
        [nameWithNul, nameWithNul]).2 = [(1, [97]), (1, [97])] ∧
    (getUniformLocations (fun _ _ => 3) (OpenGLShaderProgram.new 1)
        [namePlain, namePlain]).2 = [(1, [97, 98])] := by
  decide

/-- A call leaves the lookup of every key other than its own name as it was. -/
theorem getUniformLocation_other_keys (q : GLuint → CppString → GLint)
    (h : OpenGLShaderProgram) (n k : CppString) (hkn : k ≠ n) :
    mapFind (getUniformLocation q h n).self.uniforms k = mapFind h.uniforms k := by
  unfold getUniformLocation
  cases hfind : mapFind h.uniforms (c_str n) with
  | some w => rfl
  | none =>
    show mapFind (mapAssign h.uniforms n _) k = _
    rw [mapFind_mapAssign]
    simp only [hkn, if_false]

/-- On a cache whose values are the answers of the backend `q`, a call against `q`
keeps every present entry: a re-resolved entry is written back with the value it
had. -/
theorem getUniformLocation_keeps_sound (q : GLuint → CppString → GLint)
    (h : OpenGLShaderProgram) (n k : CppString) (v : GLint)
    (hs : CacheSound q h) (hk : mapFind h.uniforms k = some v) :
    mapFind (getUniformLocation q h n).self.uniforms k = some v := by
  by_cases hkn : k = n
  · subst hkn
    unfold getUniformLocation
    cases hfind : mapFind h.uniforms (c_str k) with
    | some w => exact hk
    | none =>
      show mapFind (mapAssign h.uniforms k _) k = some v
      rw [mapFind_mapAssign, hs k v hk]
      simp
  · rw [getUniformLocation_other_keys q h n k hkn]
    exact hk

/-- Claim C5.  Against a backend that answers by a fixed function `q` (the uniform
layout of the program does not change), on every cache built from the empty map
by `getUniformLocation` calls, for every name n and every key k present in the
map: after `getUniformLocation(n)` the key k is still present and maps to the same
location.  The lookup of every key other than n is the same before and after, so
the call can at most add the entry for n. -/
theorem getUniformLocation_never_invalidates (q : GLuint → CppString → GLint) (p : GLuint)
    (names : List CppString) (n k : CppString) (v : GLint)
    (hk : mapFind (getUniformLocations q (OpenGLShaderProgram.new p) names).1.uniforms k
            = some v) :
    mapFind (getUniformLocation q
        (getUniformLocations q (OpenGLShaderProgram.new p) names).1 n).self.uniforms k
      = some v ∧
    (∀ k2 : CppString, k2 ≠ n →
      mapFind (getUniformLocation q
          (getUniformLocations q (OpenGLShaderProgram.new p) names).1 n).self.uniforms k2
        = mapFind (getUniformLocations q (OpenGLShaderProgram.new p) names).1.uniforms k2) := by
  have hempty : CacheSound q (OpenGLShaderProgram.new p) := by
    intro k0 v0 hk0
    exact Option.noConfusion hk0
  obtain ⟨hs, _⟩ := getUniformLocations_sound q names (OpenGLShaderProgram.new p) hempty
  exact ⟨getUniformLocation_keeps_sound q _ n k v hs hk,
    fun k2 hk2 => getUniformLocation_other_keys q _ n k2 hk2⟩

/-- Witness of claim C5: the entry stored under the name `a`, `0`, `b` by a first
call is re-resolved by a second call with that name and keeps its location. -/
theorem getUniformLocation_never_invalidates_witness :
    mapFind (getUniformLocation (fun _ _ => 3)
        (getUniformLocations (fun _ _ => 3) (OpenGLShaderProgram.new 1)
          [nameWithNul]).1 nameWithNul).self.uniforms nameWithNul
      = some 3 ∧
    (∀ k2 : CppString, k2 ≠ nameWithNul →
      mapFind (getUniformLocation (fun _ _ => 3)
          (getUniformLocations (fun _ _ => 3) (OpenGLShaderProgram.new 1)
            [nameWithNul]).1 nameWithNul).self.uniforms k2
        = mapFind (getUniformLocations (fun _ _ => 3) (OpenGLShaderProgram.new 1)
            [nameWithNul]).1.uniforms k2) :=
  getUniformLocation_never_invalidates (fun _ _ => 3) 1 [nameWithNul] nameWithNul
    nameWithNul 3 (by decide)

/-- Claim C10.  Against a backend that answers by a fixed function `q`, on a handle
whose cache was built from the empty map by any run of `getUniformLocation` calls,
`getUniformLocation(n)` returns `q(program, n.c_str())` for every name n: the value
the uncached lookup returns. -/
theorem getUniformLocation_transparent (q : GLuint → CppString → GLint) (p : GLuint)
    (names : List CppString) (n : CppString) :
    (getUniformLocation q (getUniformLocations q (OpenGLShaderProgram.new p) names).1 n).loc
      = q p (c_str n) ∧
    (getUniformLocation q (getUniformLocations q (OpenGLShaderProgram.new p) names).1 n).loc
      = getUniformLocationDirect q
          (getUniformLocations q (OpenGLShaderProgram.new p) names).1 n := by
  have hempty : CacheSound q (OpenGLShaderProgram.new p) := by
    intro k v hk
    exact Option.noConfusion hk
  obtain ⟨hs, hp⟩ := getUniformLocations_sound q names (OpenGLShaderProgram.new p) hempty
  have hp2 : (getUniformLocations q (OpenGLShaderProgram.new p) names).1.program = p := hp
  have key : (getUniformLocation q
      (getUniformLocations q (OpenGLShaderProgram.new p) names).1 n).loc = q p (c_str n) := by
    rw [getUniformLocation_loc]
    cases hfind : mapFind (getUniformLocations q (OpenGLShaderProgram.new p) names).1.uniforms
        (c_str n) with
    | none => simp [hp2]
    | some w =>
      have := hs (c_str n) w hfind
      rw [c_str_idem, hp2] at this
      simp [this]
  exact ⟨key, by rw [key]; unfold getUniformLocationDirect; rw [hp2]⟩

end OpenRW
